import Mathlib

/-!
Shallow embedding of the `services` orchestration package (the final
`Runner`-based design in `runner.go`, the legacy `ServiceRetrier` in the
retrier source, and the `MultiErrors` aggregate).

Units are modelled by a descriptor recording which capabilities they
implement and the outcome each of their lifecycle operations would produce.
`Runner.Run` is modelled as a deterministic function of the unit list, the
runner's accumulated `started` state (`resourceServices`) and a scenario
describing the asynchronous environment (when the caller context and the
signal context get cancelled, which `Listen` calls return errors, and which
of the three blocking-select branches fires first).  The model returns the
result, the final `started` state and a trace of reporter notifications and
unit lifecycle calls; `none` models a `Run` invocation that blocks forever.
-/

namespace Services

/-- Error values of the embedding: the distinguished errors of the package
(`context.Canceled`, `ErrStartCancelledBySignal`, `ErrExhaustedAttempts`,
`ErrNotStartable`, `ErrTimeout`) plus arbitrary application errors. -/
inductive GoErr
  | ctxCanceled
  | startCancelledBySignal
  | exhaustedAttempts
  | notStartable
  | timeout
  | custom (n : Nat)
deriving DecidableEq, Repr

/-- Which startable capability a unit implements: `Resource` (blocking
`Start`/`Stop`), `Server` (`Listen`/`Close`), or neither of the two. -/
inductive UnitKind
  | resource
  | server
  | neither
deriving DecidableEq, Repr

/-- Descriptor of a managed unit: its capabilities and the outcome each of
its lifecycle operations returns when invoked (`none` = success). -/
structure SUnit where
  id : Nat
  kind : UnitKind
  configurable : Bool := false
  loadResult : Option GoErr := none
  startResult : Option GoErr := none
  stopResult : Option GoErr := none
  closeResult : Option GoErr := none
deriving DecidableEq, Repr

/-- Trace events: reporter notifications (`before…`/`after…`), actual unit
lifecycle calls (`call…`), and the `wgServers.Wait()` barrier that holds
`Run` until every `Listen` goroutine has returned. -/
inductive Ev
  | beforeLoad (id : Nat)
  | afterLoad (id : Nat) (r : Option GoErr)
  | beforeStart (id : Nat)
  | afterStart (id : Nat) (r : Option GoErr)
  | beforeStop (id : Nat)
  | afterStop (id : Nat) (r : Option GoErr)
  | callLoad (id : Nat)
  | callStart (id : Nat)
  | callListen (id : Nat)
  | callStop (id : Nat)
  | callClose (id : Nat)
  | waitListeners
deriving DecidableEq, Repr

/-- Reporter notifications are emitted only when a reporter is present
(every reporter call in `runner.go` is guarded by `hasReporter`). -/
def rpt (hasReporter : Bool) (e : Ev) : List Ev :=
  if hasReporter then [e] else []

/-- Which branch of the blocking select in `Run` fires first: a captured
server failure, the signal subscription, or the caller's context. -/
inductive Unblock
  | serverFail
  | signal
  | ctxCancel
deriving DecidableEq, Repr

/-- Scenario describing the asynchronous environment of one `Run` call.
`ctxCancelAt`/`sigCancelAt` give the check-counter time from which the
caller context resp. the signal-driven context reads as cancelled (the loop
performs two checks per unit, numbered `2*i` and `2*i+1` for unit `i`, and a
final check numbered `2*n`).  `listenReturns` lists the `(launch index,
error)` pairs of `Listen` calls that returned with an error, in arrival
order.  `unblock` selects which ready branch the blocking select takes. -/
structure Scenario where
  hasReporter : Bool
  ctxCancelAt : Option Nat := none
  sigCancelAt : Option Nat := none
  listenReturns : List (Nat × GoErr) := []
  unblock : Unblock := Unblock.signal
deriving DecidableEq, Repr

/-- Whether a context with the given cancellation time reads as done at
check time `t`. -/
def doneAt : Option Nat → Nat → Bool
  | none, _ => false
  | some c, t => decide (c ≤ t)

/-- Mutable loop state of `Run`: the check counter, the `hasServer` flag,
the launched servers (in launch order, giving `serverCount` as its length)
and the accumulated `resourceServices` (`started`). -/
structure LoopSt where
  t : Nat
  hasServer : Bool
  servers : List SUnit
  started : List SUnit
deriving DecidableEq, Repr

/-- Outcome of the startup loop: an early `return` with an error, or falling
off the end of the loop. -/
inductive LoopOut
  | aborted (e : GoErr) (st : LoopSt)
  | done (st : LoopSt)
deriving DecidableEq, Repr

/-- One cancellation check of the startup loop (the select on `ctx.Done()`
and `ctxSignal.Done()`): returns the error to abort with.  When a server has
already been launched the `break` in the select only leaves the select, so
the loop carries on processing the unit — the check returns `none`. -/
def loopCheck (sc : Scenario) (t : Nat) (hasServer : Bool) : Option GoErr :=
  if doneAt sc.ctxCancelAt t then
    if hasServer then none else some GoErr.ctxCanceled
  else if doneAt sc.sigCancelAt t then
    if hasServer then none else some GoErr.startCancelledBySignal
  else none

/-- The `Configurable` probe of `Run`: if the unit is configurable, report
before-load, call `Load`, report after-load, and surface the load error. -/
def loadPhase (sc : Scenario) (u : SUnit) : List Ev × Option GoErr :=
  if u.configurable then
    (rpt sc.hasReporter (Ev.beforeLoad u.id) ++ [Ev.callLoad u.id] ++
      rpt sc.hasReporter (Ev.afterLoad u.id u.loadResult), u.loadResult)
  else ([], none)

/-- Processing of a single unit by the startup loop of `Run`: first
cancellation check, load phase, second cancellation check, before-start
report, then dispatch on the unit's capability.  A unit implementing
neither capability falls through the type switch with no effect. -/
def stepUnit (sc : Scenario) (u : SUnit) (st : LoopSt) : List Ev × LoopOut :=
  match loopCheck sc st.t st.hasServer with
  | some e => ([], LoopOut.aborted e st)
  | none =>
    let load := loadPhase sc u
    match load.2 with
    | some e => (load.1, LoopOut.aborted e st)
    | none =>
      match loopCheck sc (st.t + 1) st.hasServer with
      | some e => (load.1, LoopOut.aborted e st)
      | none =>
        let evBS := rpt sc.hasReporter (Ev.beforeStart u.id)
        match u.kind with
        | UnitKind.resource =>
          let evs := load.1 ++ evBS ++ [Ev.callStart u.id] ++
            rpt sc.hasReporter (Ev.afterStart u.id u.startResult)
          match u.startResult with
          | some e => (evs, LoopOut.aborted e st)
          | none =>
            (evs, LoopOut.done { st with t := st.t + 2, started := st.started ++ [u] })
        | UnitKind.server =>
          (load.1 ++ evBS ++ [Ev.callListen u.id],
            LoopOut.done { st with t := st.t + 2, hasServer := true, servers := st.servers ++ [u] })
        | UnitKind.neither =>
          (load.1 ++ evBS, LoopOut.done { st with t := st.t + 2 })

/-- The startup loop of `Run` over the declared unit list. -/
def runLoop (sc : Scenario) : List SUnit → LoopSt → List Ev × LoopOut
  | [], st => ([], LoopOut.done st)
  | u :: rest, st =>
    match stepUnit sc u st with
    | (evs, LoopOut.aborted e st') => (evs, LoopOut.aborted e st')
    | (evs, LoopOut.done st') =>
      let r := runLoop sc rest st'
      (evs ++ r.1, r.2)

/-- The per-server goroutine forwards a `Listen` error to the error channel
only when it is not `context.Canceled`. -/
def delivered (raw : List (Nat × GoErr)) : List (Nat × GoErr) :=
  raw.filter (fun p => p.2 ≠ GoErr.ctxCanceled)

/-- Assembly of the `MultiErrors` value in the blocking phase: an all-nil
vector sized to the number of launched servers, with each received pair
written at its launch index (first received pair, then the drained rest). -/
def buildMulti (n : Nat) (pairs : List (Nat × GoErr)) : List (Option GoErr) :=
  pairs.foldl (fun acc p => acc.set p.1 (some p.2)) (List.replicate n none)

/-- Result of a `Run` call: success, a single error, or a `MultiErrors`. -/
inductive RunResult
  | ok
  | err (e : GoErr)
  | multi (es : List (Option GoErr))
deriving DecidableEq, Repr

/-- The blocking select of `Run`, resolved by the scenario's `unblock`
choice; `none` models a select none of whose branches ever becomes ready
(the call would block forever). -/
def blocking (sc : Scenario) (serverCount : Nat) : Option RunResult :=
  match sc.unblock with
  | Unblock.serverFail =>
    match delivered sc.listenReturns with
    | [] => none
    | pairs => some (RunResult.multi (buildMulti serverCount pairs))
  | Unblock.signal =>
    if sc.sigCancelAt.isSome then some RunResult.ok else none
  | Unblock.ctxCancel =>
    if sc.ctxCancelAt.isSome then some (RunResult.err GoErr.ctxCanceled) else none

/-- The code after the startup loop: a final cancellation check that aborts
only when no server was launched, the non-blocking `return nil`, and
otherwise the blocking phase. -/
def postLoop (sc : Scenario) (st : LoopSt) : Option RunResult :=
  if doneAt sc.ctxCancelAt st.t && !st.hasServer then
    some (RunResult.err GoErr.ctxCanceled)
  else if doneAt sc.sigCancelAt st.t && !st.hasServer then
    some (RunResult.err GoErr.startCancelledBySignal)
  else if !st.hasServer then
    some RunResult.ok
  else
    blocking sc st.servers.length

/-- The deferred `stopServers`: close every launched server in launch order,
reporting after-stop for each. -/
def closeEvents (sc : Scenario) : List SUnit → List Ev
  | [] => []
  | s :: rest =>
    [Ev.callClose s.id] ++ rpt sc.hasReporter (Ev.afterStop s.id s.closeResult) ++
      closeEvents sc rest

/-- Model of `Runner.Run`: the startup loop over `units` starting from the
accumulated `started0` state, then the post-loop/blocking phase, then the
deferred shutdown (close all launched servers, then wait for every listen
goroutine).  Returns the result, the final `resourceServices` and the
trace; `none` models a call that blocks forever. -/
def RunnerRun (sc : Scenario) (units : List SUnit) (started0 : List SUnit) :
    Option (RunResult × List SUnit × List Ev) :=
  let st0 : LoopSt := { t := 0, hasServer := false, servers := [], started := started0 }
  match runLoop sc units st0 with
  | (evs, LoopOut.aborted e st) =>
    some (RunResult.err e, st.started,
      evs ++ closeEvents sc st.servers ++ [Ev.waitListeners])
  | (evs, LoopOut.done st) =>
    match postLoop sc st with
    | none => none
    | some r =>
      some (r, st.started, evs ++ closeEvents sc st.servers ++ [Ev.waitListeners])

/-- Teardown walk of `Runner.Finish` over the reversed `started` sequence:
report before-stop, call `Stop`, report after-stop; a stop error returns
immediately leaving the not-yet-stopped remainder recorded (in original
order); each successful stop truncates the sequence by one. -/
def finishRev (hasReporter : Bool) : List SUnit → List Ev × Option GoErr × List SUnit
  | [] => ([], none, [])
  | u :: rest =>
    let evs := rpt hasReporter (Ev.beforeStop u.id) ++ [Ev.callStop u.id] ++
      rpt hasReporter (Ev.afterStop u.id u.stopResult)
    match u.stopResult with
    | some e => (evs, some e, (u :: rest).reverse)
    | none =>
      let r := finishRev hasReporter rest
      (evs ++ r.1, r.2.1, r.2.2)

/-- Model of `Runner.Finish`: walk `started` in reverse order. -/
def RunnerFinish (hasReporter : Bool) (started : List SUnit) :
    List Ev × Option GoErr × List SUnit :=
  finishRev hasReporter started.reverse

/-- The `resourceServices` sequence of a freshly constructed `Runner`
(`NewRunner` allocates an empty slice). -/
def NewRunnerStarted : List SUnit := []

/-- Error message of each distinguished error value. -/
def errMessage : GoErr → String
  | GoErr.ctxCanceled => "context canceled"
  | GoErr.startCancelledBySignal => "start cancelled by signal"
  | GoErr.exhaustedAttempts => "exhausted attempts"
  | GoErr.notStartable => "service is not Startable"
  | GoErr.timeout => "timeout"
  | GoErr.custom n => "error " ++ toString n

/-- The loop body of `MultiErrors.Error`: a `", "` separator before every
entry but the first, then `err.Error()` on the entry.  Calling `Error` on a
nil entry dereferences a nil interface, which panics — modelled as `none`. -/
def multiErrorsGo : List (Option GoErr) → Bool → Option String
  | [], _ => some ""
  | none :: _, _ => none
  | some e :: rest, first =>
    let sep := if first then "" else ", "
    match multiErrorsGo rest false with
    | none => none
    | some s => some (sep ++ errMessage e ++ s)

/-- Model of `MultiErrors.Error`: `none` models a panic. -/
def MultiErrorsError (es : List (Option GoErr)) : Option String :=
  multiErrorsGo es true

/-- Which startable capability the unit wrapped by the legacy
`ServiceRetrier` implements. -/
inductive RKind
  | withContext
  | plain
  | neither
deriving DecidableEq, Repr

/-- Events of one `ServiceRetrier.StartWithContext` call: retrier reporter
notifications and the wrapped unit's start invocations (0-based attempt). -/
inductive REv
  | beforeRetry (i : Nat)
  | afterStart (i : Nat) (e : GoErr)
  | afterGiveUp (count : Nat) (e : GoErr)
  | callStart (i : Nat)
deriving DecidableEq, Repr

/-- Outcome of one `ServiceRetrier.StartWithContext` call; `panicked`
models a nil-pointer dereference. -/
inductive ROutcome
  | ok
  | err (e : GoErr)
  | panicked
deriving DecidableEq, Repr

/-- The retry loop of the legacy `ServiceRetrier.StartWithContext`,
transcribed from the source.  `i` is the loop counter, `rem = tries - i`
the remaining iterations, `ctxDone` reads the context at time `2*i` (the
select check of attempt `i`) and `2*i + 1` (the re-check after a failed
context-aware start).  Attempt `i`'s wrapped start returns `sr i`.  After
the loop the code reports give-up through the reporter without a nil check,
so with no reporter that path panics. -/
def retrierGo (hR : Bool) (ctxDone : Nat → Bool) (kind : RKind)
    (sr : Nat → Option GoErr) (tries : Nat) : Nat → Nat → List REv × ROutcome
  | _, 0 =>
    if hR then ([REv.afterGiveUp tries GoErr.exhaustedAttempts],
      ROutcome.err GoErr.exhaustedAttempts)
    else ([], ROutcome.panicked)
  | i, rem + 1 =>
    if ctxDone (2 * i) then
      ((if hR then [REv.afterGiveUp i GoErr.ctxCanceled] else []),
        ROutcome.err GoErr.ctxCanceled)
    else
      let evRetry := if 0 < i && hR then [REv.beforeRetry i] else []
      match kind with
      | RKind.withContext =>
        match sr i with
        | none => (evRetry ++ [REv.callStart i], ROutcome.ok)
        | some _ =>
          if ctxDone (2 * i + 1) then
            (evRetry ++ [REv.callStart i] ++
              (if hR then [REv.afterGiveUp i GoErr.ctxCanceled] else []),
              ROutcome.err GoErr.ctxCanceled)
          else
            let r := retrierGo hR ctxDone kind sr tries (i + 1) rem
            (evRetry ++ [REv.callStart i] ++ r.1, r.2)
      | RKind.plain =>
        match sr i with
        | none => (evRetry ++ [REv.callStart i], ROutcome.ok)
        | some e =>
          let evAS := if hR then [REv.afterStart i e] else []
          let r := retrierGo hR ctxDone kind sr tries (i + 1) rem
          (evRetry ++ [REv.callStart i] ++ evAS ++ r.1, r.2)
      | RKind.neither =>
        let r := retrierGo hR ctxDone kind sr tries (i + 1) rem
        (evRetry ++ r.1, r.2)

/-- Model of `ServiceRetrier.StartWithContext` for a bounded number of
configured tries and no overall timeout wrapping (the context predicate
already describes whatever cancellation the caller's context undergoes). -/
def ServiceRetrierStart (hR : Bool) (ctxDone : Nat → Bool) (kind : RKind)
    (sr : Nat → Option GoErr) (tries : Nat) : List REv × ROutcome :=
  retrierGo hR ctxDone kind sr tries 0 tries

/-- Whether an event is an invocation of the wrapped unit's start. -/
def REv.isCallStart : REv → Bool
  | REv.callStart _ => true
  | _ => false

/-- Whether an event is a give-up report. -/
def REv.isGiveUp : REv → Bool
  | REv.afterGiveUp _ _ => true
  | _ => false

/-- A unit whose load (when configurable) and start (when a resource)
succeed, so the startup loop passes over it without aborting. -/
def unitOk (u : SUnit) : Prop :=
  (u.configurable = true → u.loadResult = none) ∧
    (u.kind = UnitKind.resource → u.startResult = none)

instance (u : SUnit) : Decidable (unitOk u) := by
  unfold unitOk; infer_instance

/-- A scenario in which neither the caller context nor the signal context
is ever cancelled. -/
def noCancel (sc : Scenario) : Prop :=
  sc.ctxCancelAt = none ∧ sc.sigCancelAt = none

instance (sc : Scenario) : Decidable (noCancel sc) := by
  unfold noCancel; infer_instance

/-- The resource units of a list, in declaration order. -/
def resourcesOf (us : List SUnit) : List SUnit :=
  us.filter (fun u => u.kind == UnitKind.resource)

/-- The server units of a list, in declaration order (= launch order). -/
def serversOf (us : List SUnit) : List SUnit :=
  us.filter (fun u => u.kind == UnitKind.server)

/-- Whether a unit list declares at least one server. -/
def hasServerIn (us : List SUnit) : Bool :=
  us.any (fun u => u.kind == UnitKind.server)

/-- Trace of the startup loop over a unit list that it passes without
aborting: per unit the load phase, the before-start report, and the
capability dispatch (resource start call with after-start report, server
launch, or nothing for a unit of neither capability). -/
def okEvents (sc : Scenario) : List SUnit → List Ev
  | [] => []
  | u :: rest =>
    (loadPhase sc u).1 ++ rpt sc.hasReporter (Ev.beforeStart u.id) ++
      (match u.kind with
        | UnitKind.resource => [Ev.callStart u.id] ++
            rpt sc.hasReporter (Ev.afterStart u.id u.startResult)
        | UnitKind.server => [Ev.callListen u.id]
        | UnitKind.neither => []) ++
      okEvents sc rest

/-- Trace of a teardown walk over (an already reversed segment of) the
`started` sequence in which every stop succeeds. -/
def stopEvents (hR : Bool) : List SUnit → List Ev
  | [] => []
  | u :: rest =>
    rpt hR (Ev.beforeStop u.id) ++ [Ev.callStop u.id] ++
      rpt hR (Ev.afterStop u.id u.stopResult) ++ stopEvents hR rest

/-- Projection of a `Run` outcome onto its result and final `started`
state, forgetting the trace. -/
def projRS (x : RunResult × List SUnit × List Ev) : RunResult × List SUnit :=
  (x.1, x.2.1)

/-- Core of a loop state: everything except the check counter. -/
def coreOf (st : LoopSt) : Bool × List SUnit × List SUnit :=
  (st.hasServer, st.servers, st.started)

/-- Core of a loop outcome: the abort error (if any) and the state core. -/
def outCore : LoopOut → Option GoErr × Bool × List SUnit × List SUnit
  | LoopOut.aborted e s => (some e, s.hasServer, s.servers, s.started)
  | LoopOut.done s => (none, s.hasServer, s.servers, s.started)

/-- Initial loop state of a `Run` call over the runner's accumulated
`started` sequence. -/
def initSt (started0 : List SUnit) : LoopSt :=
  { t := 0, hasServer := false, servers := [], started := started0 }

/-- A plain resource unit whose every operation succeeds. -/
def resU (i : Nat) : SUnit := { id := i, kind := UnitKind.resource }

/-- A plain server unit whose every operation succeeds. -/
def srvU (i : Nat) : SUnit := { id := i, kind := UnitKind.server }

/-- A unit implementing neither startable capability. -/
def neiU (i : Nat) : SUnit := { id := i, kind := UnitKind.neither }

/-- A resource unit whose start fails with the given error. -/
def resUFail (i : Nat) (e : GoErr) : SUnit :=
  { id := i, kind := UnitKind.resource, startResult := some e }

/-- A resource unit whose stop fails with the given error. -/
def resUStopFail (i : Nat) (e : GoErr) : SUnit :=
  { id := i, kind := UnitKind.resource, stopResult := some e }

/-- Events contributed by a resource unit whose start call fails: the load
phase, the before-start report, the start call, the after-start report. -/
def startFailEvents (sc : Scenario) (f : SUnit) : List Ev :=
  (loadPhase sc f).1 ++ rpt sc.hasReporter (Ev.beforeStart f.id) ++
    [Ev.callStart f.id] ++ rpt sc.hasReporter (Ev.afterStart f.id f.startResult)

theorem loopCheck_noCancel (sc : Scenario) (h : noCancel sc) (t : Nat) (hs : Bool) :
    loopCheck sc t hs = none := by
  obtain ⟨h1, h2⟩ := h
  simp [loopCheck, h1, h2, doneAt]

theorem runLoop_append (sc : Scenario) (xs ys : List SUnit) (st : LoopSt) :
    runLoop sc (xs ++ ys) st =
      (match runLoop sc xs st with
        | (evs, LoopOut.aborted e st') => (evs, LoopOut.aborted e st')
        | (evs, LoopOut.done st') =>
          (evs ++ (runLoop sc ys st').1, (runLoop sc ys st').2)) := by
  induction xs generalizing st with
  | nil =>
    rcases hys : runLoop sc ys st with ⟨a, b⟩
    simp only [List.nil_append, runLoop, hys]
  | cons u rest ih =>
    simp only [List.cons_append, runLoop]
    rcases hsu : stepUnit sc u st with ⟨evs, out⟩
    cases out with
    | aborted e st' => simp
    | done st' =>
      simp only [List.append_eq]
      rw [ih st']
      rcases hr : runLoop sc rest st' with ⟨evs2, out2⟩
      cases out2 with
      | aborted e st'' => simp
      | done st'' => simp [List.append_assoc]

theorem stepUnit_ok (sc : Scenario) (h : noCancel sc) (u : SUnit) (hu : unitOk u)
    (st : LoopSt) :
    stepUnit sc u st =
      ((loadPhase sc u).1 ++ rpt sc.hasReporter (Ev.beforeStart u.id) ++
        (match u.kind with
          | UnitKind.resource => [Ev.callStart u.id] ++
              rpt sc.hasReporter (Ev.afterStart u.id u.startResult)
          | UnitKind.server => [Ev.callListen u.id]
          | UnitKind.neither => []),
        LoopOut.done { st with t := st.t + 2, hasServer := st.hasServer || (u.kind == UnitKind.server), servers := st.servers ++ (if u.kind == UnitKind.server then [u] else []), started := st.started ++ (if u.kind == UnitKind.resource then [u] else []) }) := by
  obtain ⟨hload, hstart⟩ := hu
  have hl2 : (loadPhase sc u).2 = none := by
    by_cases hc : u.configurable = true
    · simp [loadPhase, hc, hload hc]
    · simp [loadPhase, hc]
  simp only [stepUnit, loopCheck_noCancel sc h]
  rcases hlp : loadPhase sc u with ⟨evl, r⟩
  have : r = none := by rw [hlp] at hl2; exact hl2
  subst this
  cases hk : u.kind with
  | resource =>
    have hs : u.startResult = none := hstart hk
    simp [hs]
  | server => simp
  | neither => simp

theorem runLoop_allOk (sc : Scenario) (h : noCancel sc) :
    ∀ us st, (∀ u ∈ us, unitOk u) →
      runLoop sc us st =
        (okEvents sc us,
          LoopOut.done { t := st.t + 2 * us.length, hasServer := st.hasServer || hasServerIn us, servers := st.servers ++ serversOf us, started := st.started ++ resourcesOf us }) := by
  intro us
  induction us with
  | nil =>
    intro st _
    cases st
    simp [runLoop, okEvents, hasServerIn, serversOf, resourcesOf]
  | cons u rest ih =>
    intro st hok
    have hu : unitOk u := hok u (List.mem_cons_self u rest)
    have hrest : ∀ w ∈ rest, unitOk w :=
      fun w hw => hok w (List.mem_cons_of_mem u hw)
    simp only [runLoop, stepUnit_ok sc h u hu st, ih _ hrest, okEvents]
    refine Prod.ext ?_ ?_
    · simp [List.append_assoc]
    · simp only []
      congr 1
      congr 1
      · simp only [List.length_cons]
        omega
      · cases hk : u.kind <;> simp [hasServerIn, List.any_cons, hk, Bool.or_assoc]
      · cases hk : u.kind <;>
          simp [serversOf, List.filter_cons, hk, List.append_assoc]
      · cases hk : u.kind <;>
          simp [resourcesOf, List.filter_cons, hk, List.append_assoc]

theorem finishRev_allOk (hR : Bool) :
    ∀ l, (∀ u ∈ l, u.stopResult = none) →
      finishRev hR l = (stopEvents hR l, none, []) := by
  intro l
  induction l with
  | nil => intro _; simp [finishRev, stopEvents]
  | cons u rest ih =>
    intro hok
    have hu : u.stopResult = none := hok u (List.mem_cons_self u rest)
    have hrest : ∀ w ∈ rest, w.stopResult = none :=
      fun w hw => hok w (List.mem_cons_of_mem u hw)
    simp [finishRev, hu, ih hrest, stopEvents, List.append_assoc]

theorem stepUnit_t_irrel (sc : Scenario) (h : noCancel sc) (u : SUnit) (st : LoopSt)
    (t' : Nat) :
    stepUnit sc u { st with t := t' } =
      ((stepUnit sc u st).1,
        (match (stepUnit sc u st).2 with
          | LoopOut.aborted e s => LoopOut.aborted e { s with t := t' }
          | LoopOut.done s => LoopOut.done { s with t := t' + 2 })) := by
  simp only [stepUnit, loopCheck_noCancel sc h]
  rcases hlp : loadPhase sc u with ⟨evl, r⟩
  cases r with
  | some e => simp
  | none =>
    cases hk : u.kind with
    | resource =>
      cases hs : u.startResult <;> simp
    | server => simp
    | neither => simp

theorem runLoop_t_irrel (sc : Scenario) (h : noCancel sc) :
    ∀ us st t',
      (runLoop sc us { st with t := t' }).1 = (runLoop sc us st).1 ∧
        outCore (runLoop sc us { st with t := t' }).2 =
          outCore (runLoop sc us st).2 := by
  intro us
  induction us with
  | nil => intro st t'; simp [runLoop, outCore]
  | cons u rest ih =>
    intro st t'
    simp only [runLoop, stepUnit_t_irrel sc h u st t']
    rcases hsu : stepUnit sc u st with ⟨evs, out⟩
    cases out with
    | aborted e s => simp [outCore]
    | done s =>
      have hrec := ih s (t' + 2)
      simp only []
      exact ⟨by rw [hrec.1], hrec.2⟩

theorem postLoop_noCancel (sc : Scenario) (h : noCancel sc) (st : LoopSt) :
    postLoop sc st =
      (if !st.hasServer then some RunResult.ok else blocking sc st.servers.length) := by
  obtain ⟨h1, h2⟩ := h
  simp [postLoop, doneAt, h1, h2]

theorem RunnerRun_eq_initSt (sc : Scenario) (units started0 : List SUnit) :
    RunnerRun sc units started0 =
      (match runLoop sc units (initSt started0) with
        | (evs, LoopOut.aborted e st) =>
          some (RunResult.err e, st.started,
            evs ++ closeEvents sc st.servers ++ [Ev.waitListeners])
        | (evs, LoopOut.done st) =>
          (match postLoop sc st with
            | none => none
            | some r =>
              some (r, st.started,
                evs ++ closeEvents sc st.servers ++ [Ev.waitListeners]))) := rfl

theorem RunnerRun_proj_eq (sc : Scenario) (h : noCancel sc)
    (us1 us2 started0 : List SUnit)
    (hcore : outCore (runLoop sc us1 (initSt started0)).2 =
      outCore (runLoop sc us2 (initSt started0)).2) :
    (RunnerRun sc us1 started0).map projRS = (RunnerRun sc us2 started0).map projRS := by
  rw [RunnerRun_eq_initSt sc us1 started0, RunnerRun_eq_initSt sc us2 started0]
  rcases h1 : runLoop sc us1 (initSt started0) with ⟨e1, o1⟩
  rcases h2 : runLoop sc us2 (initSt started0) with ⟨e2, o2⟩
  rw [h1, h2] at hcore
  cases o1 with
  | aborted a1 s1 =>
    cases o2 with
    | aborted a2 s2 =>
      simp only [outCore, Prod.mk.injEq, Option.some.injEq] at hcore
      obtain ⟨ha, hh, hs, hst⟩ := hcore
      dsimp only
      simp [projRS, ha, hst]
    | done s2 => simp [outCore] at hcore
  | done s1 =>
    cases o2 with
    | aborted a2 s2 => simp [outCore] at hcore
    | done s2 =>
      simp only [outCore, Prod.mk.injEq] at hcore
      obtain ⟨-, hh, hs, hst⟩ := hcore
      dsimp only
      rw [postLoop_noCancel sc h s1, postLoop_noCancel sc h s2, hh, hs]
      cases hb : (if !s2.hasServer then some RunResult.ok else blocking sc s2.servers.length) with
      | none => simp
      | some r => simp [projRS, hst]

theorem finishRev_append_ok (hR : Bool) :
    ∀ xs ys, (∀ u ∈ xs, u.stopResult = none) →
      finishRev hR (xs ++ ys) =
        (stopEvents hR xs ++ (finishRev hR ys).1,
          (finishRev hR ys).2.1, (finishRev hR ys).2.2) := by
  intro xs
  induction xs with
  | nil => intro ys _; simp [stopEvents]
  | cons u rest ih =>
    intro ys hok
    have hu : u.stopResult = none := hok u (List.mem_cons_self u rest)
    have hrest : ∀ w ∈ rest, w.stopResult = none :=
      fun w hw => hok w (List.mem_cons_of_mem u hw)
    simp [finishRev, hu, ih ys hrest, stopEvents, List.append_assoc]

theorem runLoop_cons_neither_core (sc : Scenario) (h : noCancel sc) (u : SUnit)
    (hk : u.kind = UnitKind.neither) (hl : u.configurable = true → u.loadResult = none)
    (suf : List SUnit) (st : LoopSt) :
    outCore (runLoop sc (u :: suf) st).2 = outCore (runLoop sc suf st).2 := by
  have hu : unitOk u := by
    refine ⟨hl, fun hres => ?_⟩
    rw [hk] at hres
    exact absurd hres (by decide)
  simp [runLoop, stepUnit_ok sc h u hu st, hk,
    show (UnitKind.neither == UnitKind.server) = false from rfl]
  exact (runLoop_t_irrel sc h suf st (st.t + 2)).2

theorem callStop_notin_loadPhase (sc : Scenario) (u : SUnit) (i : Nat) :
    Ev.callStop i ∉ (loadPhase sc u).1 := by
  by_cases hc : u.configurable = true <;> cases hb : sc.hasReporter <;>
    simp [loadPhase, hc, rpt, hb]

theorem callStop_notin_okEvents (sc : Scenario) (i : Nat) :
    ∀ us, Ev.callStop i ∉ okEvents sc us := by
  intro us
  induction us with
  | nil => simp [okEvents]
  | cons u rest ih =>
    cases hb : sc.hasReporter <;> cases hk : u.kind <;>
      simp [okEvents, rpt, hb, hk, callStop_notin_loadPhase sc u i, ih]

theorem callStop_notin_closeEvents (sc : Scenario) (i : Nat) :
    ∀ ss, Ev.callStop i ∉ closeEvents sc ss := by
  intro ss
  induction ss with
  | nil => simp [closeEvents]
  | cons s rest ih =>
    cases hb : sc.hasReporter <;> simp [closeEvents, rpt, hb, ih]

theorem callStop_notin_startFailEvents (sc : Scenario) (f : SUnit) (i : Nat) :
    Ev.callStop i ∉ startFailEvents sc f := by
  cases hb : sc.hasReporter <;>
    simp [startFailEvents, rpt, hb, callStop_notin_loadPhase sc f i]

theorem loadPhase_snd_none (sc : Scenario) (u : SUnit)
    (hl : u.configurable = true → u.loadResult = none) : (loadPhase sc u).2 = none := by
  by_cases hc : u.configurable = true
  · simp [loadPhase, hc, hl hc]
  · simp [loadPhase, hc]

theorem stepUnit_startFail (sc : Scenario) (h : noCancel sc) (f : SUnit) (e : GoErr)
    (hk : f.kind = UnitKind.resource) (hl : f.configurable = true → f.loadResult = none)
    (hs : f.startResult = some e) (st : LoopSt) :
    stepUnit sc f st = (startFailEvents sc f, LoopOut.aborted e st) := by
  have hl2 := loadPhase_snd_none sc f hl
  simp only [stepUnit, loopCheck_noCancel sc h, startFailEvents]
  rcases hlp : loadPhase sc f with ⟨evl, r⟩
  rw [hlp] at hl2
  simp only at hl2
  subst hl2
  simp [hk, hs, List.append_assoc]

/-- Claim C1 (corrected): `Runner.Run` performs no rollback.  When the
startup loop reaches a resource whose start fails (after a prefix it passes
without cancellation), `Run` returns that error immediately: the resources
started so far stay recorded in `started` (accumulated in start order after
the pre-existing entries), the trace contains no resource stop call at all,
and they are only stopped by a subsequent `Finish`, which drains them in
reverse order. -/
theorem C1_no_rollback (sc : Scenario) (pre : List SUnit) (f : SUnit)
    (suf started0 : List SUnit) (e : GoErr)
    (h : noCancel sc) (hpre : ∀ w ∈ pre, unitOk w)
    (hkf : f.kind = UnitKind.resource)
    (hlf : f.configurable = true → f.loadResult = none)
    (hsf : f.startResult = some e) :
    RunnerRun sc (pre ++ f :: suf) started0 =
      some (RunResult.err e, started0 ++ resourcesOf pre,
        okEvents sc pre ++ startFailEvents sc f ++ closeEvents sc (serversOf pre) ++
          [Ev.waitListeners]) ∧
    (∀ i : Nat,
      Ev.callStop i ∉
        okEvents sc pre ++ startFailEvents sc f ++ closeEvents sc (serversOf pre) ++
          [Ev.waitListeners]) ∧
    ((∀ w ∈ started0 ++ resourcesOf pre, w.stopResult = none) →
      RunnerFinish sc.hasReporter (started0 ++ resourcesOf pre) =
        (stopEvents sc.hasReporter (started0 ++ resourcesOf pre).reverse, none, [])) := by
  refine ⟨?_, ?_, ?_⟩
  · rw [RunnerRun_eq_initSt]
    rw [runLoop_append sc pre (f :: suf) (initSt started0)]
    rw [runLoop_allOk sc h pre (initSt started0) hpre]
    dsimp only
    simp only [runLoop, stepUnit_startFail sc h f e hkf hlf hsf]
    simp [initSt, List.append_assoc]
  · intro i
    simp [callStop_notin_okEvents sc i, callStop_notin_startFailEvents sc f i,
      callStop_notin_closeEvents sc i]
  · intro hstops
    have : ∀ w ∈ (started0 ++ resourcesOf pre).reverse, w.stopResult = none := by
      intro w hw
      exact hstops w (List.mem_reverse.mp hw)
    exact finishRev_allOk sc.hasReporter _ this

/-- Claim C1 witness: a healthy resource followed by a failing one and one
more declared unit; `Run` aborts with the failing start's error, keeps the
first resource in `started`, stops nothing. -/
theorem C1_no_rollback_witness :
    RunnerRun { hasReporter := true }
        ([resU 0] ++ resUFail 1 (GoErr.custom 7) :: [resU 2]) [] =
      some (RunResult.err (GoErr.custom 7), [] ++ resourcesOf [resU 0],
        okEvents { hasReporter := true } [resU 0] ++
          startFailEvents { hasReporter := true } (resUFail 1 (GoErr.custom 7)) ++
          closeEvents { hasReporter := true } (serversOf [resU 0]) ++
          [Ev.waitListeners]) :=
  (C1_no_rollback { hasReporter := true } [resU 0] (resUFail 1 (GoErr.custom 7))
    [resU 2] [] (GoErr.custom 7) (by decide) (by decide) (by decide) (by decide)
    (by decide)).1

/-- Claim C1 counterexample: with resource 0 healthy and resource 1's start
failing, `Run` returns the error while `started` still holds resource 0 (so
it is not empty as the claim requires) and the trace contains no stop of
resource 0. -/
theorem C1_counterexample :
    RunnerRun { hasReporter := true } [resU 0, resUFail 1 (GoErr.custom 7)] [] =
      some (RunResult.err (GoErr.custom 7), [resU 0],
        [Ev.beforeStart 0, Ev.callStart 0, Ev.afterStart 0 none, Ev.beforeStart 1,
          Ev.callStart 1, Ev.afterStart 1 (some (GoErr.custom 7)), Ev.waitListeners]) ∧
      [resU 0] ≠ ([] : List SUnit) := by
  decide

/-- Claim C5 (corrected): in the final `Runner`, a unit implementing neither
startable capability does not abort the run.  With no cancellation and a
prefix the loop passes, `Run` over a list containing such a unit returns the
same result and the same final `started` sequence as over the list with the
unit removed: the unit is skipped and every later unit is still processed;
`ErrNotStartable` is never produced by `Runner.Run`. -/
theorem C5_neither_unit_skipped (sc : Scenario) (h : noCancel sc)
    (pre : List SUnit) (u : SUnit) (suf started0 : List SUnit)
    (hk : u.kind = UnitKind.neither)
    (hl : u.configurable = true → u.loadResult = none)
    (hpre : ∀ w ∈ pre, unitOk w) :
    (RunnerRun sc (pre ++ u :: suf) started0).map projRS =
      (RunnerRun sc (pre ++ suf) started0).map projRS := by
  apply RunnerRun_proj_eq sc h
  have hA := runLoop_append sc pre (u :: suf) (initSt started0)
  have hB := runLoop_append sc pre suf (initSt started0)
  rw [runLoop_allOk sc h pre (initSt started0) hpre] at hA hB
  dsimp only at hA hB
  rw [hA, hB]
  exact runLoop_cons_neither_core sc h u hk hl suf _

/-- Claim C5 witness: with a neither-capability unit followed by a healthy
resource, `Run` behaves exactly as if the unit were absent. -/
theorem C5_neither_unit_skipped_witness :
    (RunnerRun { hasReporter := true } ([] ++ neiU 0 :: [resU 1]) []).map projRS =
      (RunnerRun { hasReporter := true } ([] ++ [resU 1]) []).map projRS :=
  C5_neither_unit_skipped { hasReporter := true } (by decide) [] (neiU 0) [resU 1] []
    (by decide) (by decide) (by decide)

/-- Claim C5 counterexample: on the list `[neither-unit, resource]` the
claim predicts an immediate fatal not-startable abort with no later unit
attempted, but `Run` returns success, the resource is started (its start
call is in the trace), and the final `started` holds the resource. -/
theorem C5_counterexample :
    RunnerRun { hasReporter := true } [neiU 0, resU 1] [] =
      some (RunResult.ok, [resU 1],
        [Ev.beforeStart 0, Ev.beforeStart 1, Ev.callStart 1, Ev.afterStart 1 none,
          Ev.waitListeners]) := by
  decide

/-- Claim C3: `Runner.Finish` stops the recorded resources in strict
reverse recording order.  If the stop of some unit fails (every unit
recorded after it stopping cleanly), `Finish` returns that error at once and
`started` retains exactly the failing unit and everything recorded before
it, so a retried `Finish` resumes at the failure point and no successfully
stopped unit is ever stopped again; and when every stop succeeds `Finish`
returns nil with `started` fully drained. -/
theorem C3_finish_reverse_resume :
    (∀ (hR : Bool) (a : List SUnit) (f : SUnit) (b : List SUnit) (e : GoErr),
      (∀ u ∈ b, u.stopResult = none) → f.stopResult = some e →
      RunnerFinish hR (a ++ f :: b) =
        (stopEvents hR b.reverse ++
            (rpt hR (Ev.beforeStop f.id) ++ [Ev.callStop f.id] ++
              rpt hR (Ev.afterStop f.id (some e))),
          some e, a ++ [f])) ∧
    (∀ (hR : Bool) (st : List SUnit), (∀ u ∈ st, u.stopResult = none) →
      RunnerFinish hR st = (stopEvents hR st.reverse, none, [])) := by
  constructor
  · intro hR a f b e hb hf
    have hrev : (a ++ f :: b).reverse = b.reverse ++ (f :: a.reverse) := by
      simp
    rw [RunnerFinish, hrev]
    rw [finishRev_append_ok hR b.reverse (f :: a.reverse)
      (fun u hu => hb u (List.mem_reverse.mp hu))]
    simp [finishRev, hf]
  · intro hR st hst
    exact finishRev_allOk hR st.reverse (fun u hu => hst u (List.mem_reverse.mp hu))

/-- Claim C3 witness: with `started = [r0, r1-stop-fails, r2]`, `Finish`
stops r2, fails on r1 leaving `[r0, r1]` recorded; and with all stops
healthy it drains completely returning nil. -/
theorem C3_finish_reverse_resume_witness :
    RunnerFinish true ([resU 0] ++ resUStopFail 1 (GoErr.custom 3) :: [resU 2]) =
      (stopEvents true [resU 2].reverse ++
          (rpt true (Ev.beforeStop 1) ++ [Ev.callStop 1] ++
            rpt true (Ev.afterStop 1 (some (GoErr.custom 3)))),
        some (GoErr.custom 3), [resU 0] ++ [resUStopFail 1 (GoErr.custom 3)]) ∧
    RunnerFinish true [resU 0, resU 2] =
      (stopEvents true [resU 0, resU 2].reverse, none, []) :=
  ⟨C3_finish_reverse_resume.1 true [resU 0] (resUStopFail 1 (GoErr.custom 3)) [resU 2]
      (GoErr.custom 3) (by decide) (by decide),
    C3_finish_reverse_resume.2 true [resU 0, resU 2] (by decide)⟩

theorem RunnerRun_resources_ok (sc : Scenario) (h : noCancel sc)
    (us started0 : List SUnit)
    (hres : ∀ u ∈ us,
      u.kind = UnitKind.resource ∧ u.loadResult = none ∧ u.startResult = none) :
    RunnerRun sc us started0 =
      some (RunResult.ok, started0 ++ us, okEvents sc us ++ [Ev.waitListeners]) := by
  have hok : ∀ u ∈ us, unitOk u := by
    intro u hu
    obtain ⟨-, hl, hs⟩ := hres u hu
    exact ⟨fun _ => hl, fun _ => hs⟩
  have hsv : hasServerIn us = false := by
    rw [hasServerIn, List.any_eq_false]
    intro u hu
    simp [(hres u hu).1]
  have hso : serversOf us = [] := by
    rw [serversOf, List.filter_eq_nil_iff]
    intro u hu
    simp [(hres u hu).1]
  have hro : resourcesOf us = us := by
    rw [resourcesOf, List.filter_eq_self]
    intro u hu
    simp [(hres u hu).1]
  rw [RunnerRun_eq_initSt]
  rw [runLoop_allOk sc h us (initSt started0) hok]
  dsimp only
  rw [postLoop_noCancel sc h]
  simp [initSt, hsv, hso, hro, closeEvents]

/-- Claim C10: `Run` never resets the accumulated `started` sequence.  A
fresh runner starts empty; a run over healthy resources appends them after
whatever is already recorded, so a second run on the same instance
accumulates after the first, and a single later `Finish` (all stops
succeeding) drains the resources of both runs in one reverse walk, leaving
the sequence empty. -/
theorem C10_started_accumulates (sc1 sc2 : Scenario) (us1 us2 : List SUnit)
    (h1 : noCancel sc1) (h2 : noCancel sc2)
    (hres : ∀ u ∈ us1 ++ us2,
      u.kind = UnitKind.resource ∧ u.loadResult = none ∧ u.startResult = none) :
    RunnerRun sc1 us1 NewRunnerStarted =
      some (RunResult.ok, us1, okEvents sc1 us1 ++ [Ev.waitListeners]) ∧
    RunnerRun sc2 us2 us1 =
      some (RunResult.ok, us1 ++ us2, okEvents sc2 us2 ++ [Ev.waitListeners]) ∧
    (∀ hR : Bool, (∀ u ∈ us1 ++ us2, u.stopResult = none) →
      RunnerFinish hR (us1 ++ us2) =
        (stopEvents hR (us1 ++ us2).reverse, none, [])) := by
  have hres1 : ∀ u ∈ us1,
      u.kind = UnitKind.resource ∧ u.loadResult = none ∧ u.startResult = none :=
    fun u hu => hres u (List.mem_append_left us2 hu)
  have hres2 : ∀ u ∈ us2,
      u.kind = UnitKind.resource ∧ u.loadResult = none ∧ u.startResult = none :=
    fun u hu => hres u (List.mem_append_right us1 hu)
  refine ⟨?_, ?_, ?_⟩
  · have := RunnerRun_resources_ok sc1 h1 us1 NewRunnerStarted hres1
    simpa [NewRunnerStarted] using this
  · exact RunnerRun_resources_ok sc2 h2 us2 us1 hres2
  · intro hR hstops
    exact finishRev_allOk hR (us1 ++ us2).reverse
      (fun u hu => hstops u (List.mem_reverse.mp hu))

/-- Claim C10 witness: run `[r0]`, then run `[r1]` on the same runner;
`started` becomes `[r0, r1]`, and one `Finish` drains both in reverse. -/
theorem C10_started_accumulates_witness :
    RunnerRun { hasReporter := true } [resU 0] NewRunnerStarted =
      some (RunResult.ok, [resU 0],
        okEvents { hasReporter := true } [resU 0] ++ [Ev.waitListeners]) ∧
    RunnerRun { hasReporter := true } [resU 1] [resU 0] =
      some (RunResult.ok, [resU 0] ++ [resU 1],
        okEvents { hasReporter := true } [resU 1] ++ [Ev.waitListeners]) ∧
    (∀ hR : Bool, (∀ u ∈ [resU 0] ++ [resU 1], u.stopResult = none) →
      RunnerFinish hR ([resU 0] ++ [resU 1]) =
        (stopEvents hR ([resU 0] ++ [resU 1]).reverse, none, [])) :=
  C10_started_accumulates { hasReporter := true } { hasReporter := true }
    [resU 0] [resU 1] (by decide) (by decide) (by decide)

theorem callClose_mem_closeEvents (sc : Scenario) :
    ∀ ss, ∀ s ∈ ss, Ev.callClose s.id ∈ closeEvents sc ss := by
  intro ss
  induction ss with
  | nil => intro s hs; cases hs
  | cons x rest ih =>
    intro s hs
    rcases List.mem_cons.mp hs with hx | hx
    · subst hx; simp [closeEvents]
    · simp [closeEvents, ih s hx]

theorem RunnerRun_allOk_blocking (sc : Scenario) (h : noCancel sc)
    (units started0 : List SUnit)
    (hok : ∀ u ∈ units, unitOk u) (hsrv : hasServerIn units = true) :
    RunnerRun sc units started0 =
      (match blocking sc (serversOf units).length with
        | none => none
        | some r =>
          some (r, started0 ++ resourcesOf units,
            okEvents sc units ++ closeEvents sc (serversOf units) ++
              [Ev.waitListeners])) := by
  rw [RunnerRun_eq_initSt]
  rw [runLoop_allOk sc h units (initSt started0) hok]
  dsimp only
  rw [postLoop_noCancel sc h]
  simp [initSt, hsrv]

/-- Claim C2: when a run has launched `n` servers, exactly one of them (the
one with launch index `k`) returns a non-cancellation listen error while
all others keep listening, the blocking phase returns a `MultiErrors` of
length exactly `n` whose entry `k` is that error and whose every other
entry is nil, and every launched server receives a close call in the trace
before `Run` returns. -/
theorem C2_single_listen_failure (sc : Scenario) (units started0 : List SUnit)
    (k : Nat) (e : GoErr)
    (h : noCancel sc) (hok : ∀ u ∈ units, unitOk u)
    (hsrv : hasServerIn units = true)
    (hlr : sc.listenReturns = [(k, e)]) (hne : e ≠ GoErr.ctxCanceled)
    (hub : sc.unblock = Unblock.serverFail)
    (hk : k < (serversOf units).length) :
    RunnerRun sc units started0 =
      some (RunResult.multi
          ((List.replicate (serversOf units).length none).set k (some e)),
        started0 ++ resourcesOf units,
        okEvents sc units ++ closeEvents sc (serversOf units) ++ [Ev.waitListeners]) ∧
    ((List.replicate (serversOf units).length none).set k (some e)).length =
      (serversOf units).length ∧
    ((List.replicate (serversOf units).length none).set k (some e))[k]? =
      some (some e) ∧
    (∀ j, j < (serversOf units).length → j ≠ k →
      ((List.replicate (serversOf units).length none).set k (some e))[j]? =
        some none) ∧
    (∀ s ∈ serversOf units,
      Ev.callClose s.id ∈
        okEvents sc units ++ closeEvents sc (serversOf units) ++ [Ev.waitListeners]) := by
  have hbl : blocking sc (serversOf units).length =
      some (RunResult.multi
        ((List.replicate (serversOf units).length none).set k (some e))) := by
    simp [blocking, hub, delivered, hlr, hne, buildMulti]
  refine ⟨?_, ?_, ?_, ?_, ?_⟩
  · rw [RunnerRun_allOk_blocking sc h units started0 hok hsrv, hbl]
  · simp
  · simp [List.getElem?_set, hk, List.length_replicate]
  · intro j hj hjk
    have hkj : ¬k = j := fun hkj => hjk hkj.symm
    simp [List.getElem?_set, hkj, List.getElem?_replicate, hj,
      List.getElem_replicate, List.getElem_set_ne]
  · intro s hs
    simp [callClose_mem_closeEvents sc (serversOf units) s hs]

/-- Claim C2 witness: three servers, the third one's listen fails with a
non-cancellation error; `Run` returns the 3-element MultiErrors
`[nil, nil, err]` and all three servers are closed. -/
theorem C2_single_listen_failure_witness :
    RunnerRun { hasReporter := true, listenReturns := [(2, GoErr.custom 9)], unblock := Unblock.serverFail }
        [srvU 0, srvU 1, srvU 2] [] =
      some (RunResult.multi
          ((List.replicate (serversOf [srvU 0, srvU 1, srvU 2]).length none).set 2
            (some (GoErr.custom 9))),
        [] ++ resourcesOf [srvU 0, srvU 1, srvU 2],
        okEvents { hasReporter := true, listenReturns := [(2, GoErr.custom 9)], unblock := Unblock.serverFail }
            [srvU 0, srvU 1, srvU 2] ++
          closeEvents { hasReporter := true, listenReturns := [(2, GoErr.custom 9)], unblock := Unblock.serverFail }
            (serversOf [srvU 0, srvU 1, srvU 2]) ++
          [Ev.waitListeners]) ∧
    ((List.replicate (serversOf [srvU 0, srvU 1, srvU 2]).length none).set 2
        (some (GoErr.custom 9))) = [none, none, some (GoErr.custom 9)] :=
  ⟨(C2_single_listen_failure
      { hasReporter := true, listenReturns := [(2, GoErr.custom 9)], unblock := Unblock.serverFail }
      [srvU 0, srvU 1, srvU 2] [] 2 (GoErr.custom 9) (by decide) (by decide)
      (by decide) (by decide) (by decide) (by decide) (by decide)).1,
    by decide⟩

/-- Claim C7: with at least one launched server, when the signal source
fires during the blocking phase `Run` returns nil (graceful shutdown); and
in every unblocking case — server failure, signal or caller cancellation —
whenever `Run` returns, the trace is the loop events followed by a close
call for every launched server and then the wait for all listen tasks, so
every server is closed and every listen task has returned before the caller
is unblocked. -/
theorem C7_graceful_shutdown (sc : Scenario) (units started0 : List SUnit)
    (evs : List Ev) (st' : LoopSt)
    (hloop : runLoop sc units (initSt started0) = (evs, LoopOut.done st'))
    (hsrv : st'.hasServer = true) :
    (sc.unblock = Unblock.signal → sc.sigCancelAt.isSome = true →
      RunnerRun sc units started0 =
        some (RunResult.ok, st'.started,
          evs ++ closeEvents sc st'.servers ++ [Ev.waitListeners])) ∧
    (∀ r stf tr, RunnerRun sc units started0 = some (r, stf, tr) →
      tr = evs ++ closeEvents sc st'.servers ++ [Ev.waitListeners] ∧
        ∀ s ∈ st'.servers, Ev.callClose s.id ∈ tr) := by
  have hpost : ∀ rr, postLoop sc st' = some rr →
      RunnerRun sc units started0 =
        some (rr, st'.started, evs ++ closeEvents sc st'.servers ++ [Ev.waitListeners]) := by
    intro rr hrr
    rw [RunnerRun_eq_initSt, hloop]
    dsimp only
    rw [hrr]
  constructor
  · intro hub hsig
    apply hpost
    simp [postLoop, hsrv, blocking, hub, hsig]
  · intro r stf tr hrun
    rw [RunnerRun_eq_initSt, hloop] at hrun
    dsimp only at hrun
    rcases hpl : postLoop sc st' with _ | rr
    · rw [hpl] at hrun; cases hrun
    · rw [hpl] at hrun
      injection hrun with hrun'
      simp only [Prod.mk.injEq] at hrun'
      obtain ⟨-, -, htr⟩ := hrun'
      refine ⟨htr.symm, ?_⟩
      intro s hs
      rw [← htr]
      simp [callClose_mem_closeEvents sc st'.servers s hs]

/-- Claim C7 witness: three servers all listening, the signal fires during
the blocking phase; `Run` returns nil, every server's close call precedes
the wait for the listen tasks. -/
theorem C7_graceful_shutdown_witness :
    RunnerRun { hasReporter := false, sigCancelAt := some 99, unblock := Unblock.signal }
        [srvU 0, srvU 1, srvU 2] [] =
      some (RunResult.ok,
        (LoopSt.mk 6 true [srvU 0, srvU 1, srvU 2] []).started,
        [Ev.callListen 0, Ev.callListen 1, Ev.callListen 2] ++
          closeEvents { hasReporter := false, sigCancelAt := some 99, unblock := Unblock.signal }
            (LoopSt.mk 6 true [srvU 0, srvU 1, srvU 2] []).servers ++
          [Ev.waitListeners]) :=
  (C7_graceful_shutdown
      { hasReporter := false, sigCancelAt := some 99, unblock := Unblock.signal }
      [srvU 0, srvU 1, srvU 2] []
      [Ev.callListen 0, Ev.callListen 1, Ev.callListen 2]
      (LoopSt.mk 6 true [srvU 0, srvU 1, srvU 2] [])
      (by decide) (by decide)).1 rfl rfl

theorem loopCheck_hasServer (sc : Scenario) (t : Nat) : loopCheck sc t true = none := by
  by_cases hc : doneAt sc.ctxCancelAt t = true <;>
    by_cases hs : doneAt sc.sigCancelAt t = true <;>
      simp [loopCheck, hc, hs]

theorem stepUnit_ok_hasServer (sc : Scenario) (u : SUnit) (hu : unitOk u) (st : LoopSt)
    (hs : st.hasServer = true) :
    stepUnit sc u st =
      ((loadPhase sc u).1 ++ rpt sc.hasReporter (Ev.beforeStart u.id) ++
        (match u.kind with
          | UnitKind.resource => [Ev.callStart u.id] ++
              rpt sc.hasReporter (Ev.afterStart u.id u.startResult)
          | UnitKind.server => [Ev.callListen u.id]
          | UnitKind.neither => []),
        LoopOut.done { st with t := st.t + 2, hasServer := st.hasServer || (u.kind == UnitKind.server), servers := st.servers ++ (if u.kind == UnitKind.server then [u] else []), started := st.started ++ (if u.kind == UnitKind.resource then [u] else []) }) := by
  obtain ⟨hload, hstart⟩ := hu
  have hl2 := loadPhase_snd_none sc u hload
  simp only [stepUnit, hs, loopCheck_hasServer sc]
  rcases hlp : loadPhase sc u with ⟨evl, r⟩
  rw [hlp] at hl2
  simp only at hl2
  subst hl2
  cases hk : u.kind with
  | resource => simp [hstart hk]
  | server => simp
  | neither => simp

/-- Claim C6 (corrected): cancellation of the startup token stops new
starts only while no server has been launched.  Before any server launch a
cancelled token makes `Run` abort at the next check, with no later unit's
load or start invoked; but once a server has been launched the loop's
cancellation check merely falls out of its select, so the next unit — and
every remaining one — is still fully processed: its load runs and its start
or listen is invoked despite the cancellation. -/
theorem C6_cancellation_scope :
    (∀ (sc : Scenario) (pre suf started0 : List SUnit) (evs : List Ev) (st' : LoopSt),
      runLoop sc pre (initSt started0) = (evs, LoopOut.done st') →
      st'.hasServer = false →
      doneAt sc.ctxCancelAt st'.t = true →
      RunnerRun sc (pre ++ suf) started0 =
        some (RunResult.err GoErr.ctxCanceled, st'.started,
          evs ++ closeEvents sc st'.servers ++ [Ev.waitListeners])) ∧
    (∀ (sc : Scenario) (u : SUnit) (st : LoopSt), st.hasServer = true → unitOk u →
      (∃ st2, (stepUnit sc u st).2 = LoopOut.done st2) ∧
      (u.kind = UnitKind.resource → Ev.callStart u.id ∈ (stepUnit sc u st).1) ∧
      (u.kind = UnitKind.server → Ev.callListen u.id ∈ (stepUnit sc u st).1)) := by
  constructor
  · intro sc pre suf started0 evs st' hloop hsv hdone
    rw [RunnerRun_eq_initSt, runLoop_append sc pre suf (initSt started0), hloop]
    dsimp only
    cases suf with
    | nil =>
      simp only [runLoop]
      simp [postLoop, hdone, hsv]
    | cons u rest =>
      have hchk : loopCheck sc st'.t st'.hasServer = some GoErr.ctxCanceled := by
        simp [loopCheck, hdone, hsv]
      simp only [runLoop, stepUnit, hchk]
      simp
  · intro sc u st hs hu
    rw [stepUnit_ok_hasServer sc u hu st hs]
    refine ⟨⟨_, rfl⟩, ?_, ?_⟩
    · intro hk; simp [hk]
    · intro hk; simp [hk]

/-- Claim C6 witness: both halves at concrete inputs — a run with no server
cancelled from the start aborts with the cancellation error and an empty
trace of unit work, and with a server already launched the next healthy
resource is still started despite cancellation. -/
theorem C6_cancellation_scope_witness :
    (RunnerRun { hasReporter := false, ctxCancelAt := some 0, unblock := Unblock.ctxCancel }
        ([] ++ [resU 1]) [] =
      some (RunResult.err GoErr.ctxCanceled,
        (initSt ([] : List SUnit)).started,
        [] ++ closeEvents { hasReporter := false, ctxCancelAt := some 0, unblock := Unblock.ctxCancel }
            (initSt ([] : List SUnit)).servers ++ [Ev.waitListeners])) ∧
    (Ev.callStart 1 ∈
      (stepUnit { hasReporter := false, ctxCancelAt := some 0, unblock := Unblock.ctxCancel }
        (resU 1) (LoopSt.mk 2 true [srvU 0] [])).1) :=
  ⟨C6_cancellation_scope.1
      { hasReporter := false, ctxCancelAt := some 0, unblock := Unblock.ctxCancel }
      [] [resU 1] [] [] (initSt []) (by decide) (by decide) (by decide),
    (C6_cancellation_scope.2
      { hasReporter := false, ctxCancelAt := some 0, unblock := Unblock.ctxCancel }
      (resU 1) (LoopSt.mk 2 true [srvU 0] []) (by decide) (by decide)).2.1 (by decide)⟩

/-- Claim C6 counterexample: a server followed by a resource, with the
caller context cancelled right after the server's launch.  The claim says
the resource's start is never invoked once the token is cancelled, but the
trace of `Run` contains the resource's start call, and `Run` surfaces the
cancellation only afterwards. -/
theorem C6_counterexample :
    RunnerRun { hasReporter := false, ctxCancelAt := some 2, unblock := Unblock.ctxCancel }
        [srvU 0, resU 1] [] =
      some (RunResult.err GoErr.ctxCanceled, [resU 1],
        [Ev.callListen 0, Ev.callStart 1, Ev.callClose 0, Ev.waitListeners]) ∧
    Ev.callStart 1 ∈
      [Ev.callListen 0, Ev.callStart 1, Ev.callClose 0, Ev.waitListeners] := by
  decide

/-- Claim C4 (code bug): `MultiErrors.Error` is not total on the values
`Run` produces.  On a `MultiErrors` with nil entries — exactly the shape
`Run` returns when one of three servers fails — the method dereferences the
nil entry and panics (modelled as `none`), while on all-populated values it
does return the comma-joined message list. -/
theorem C4_error_panics_on_nil_entry :
    MultiErrorsError [none, none, some (GoErr.custom 9)] = none ∧
    MultiErrorsError [some (GoErr.custom 1), some (GoErr.custom 2)] =
      some "error 1, error 2" :=
  ⟨rfl, rfl⟩

theorem retrierGo_allFail (f : Nat → GoErr) (kind : RKind)
    (hkind : kind = RKind.plain ∨ kind = RKind.withContext) (tries : Nat) :
    ∀ rem i,
      (retrierGo true (fun _ => false) kind (fun j => some (f j)) tries i rem).2 =
        ROutcome.err GoErr.exhaustedAttempts ∧
      ((retrierGo true (fun _ => false) kind (fun j => some (f j)) tries i rem).1.filter
          REv.isCallStart).length = rem ∧
      (retrierGo true (fun _ => false) kind (fun j => some (f j)) tries i rem).1.filter
          REv.isGiveUp = [REv.afterGiveUp tries GoErr.exhaustedAttempts] := by
  intro rem
  induction rem with
  | zero =>
    intro i
    simp [retrierGo, REv.isGiveUp, REv.isCallStart, List.filter]
  | succ rem ih =>
    intro i
    have hrec := ih (i + 1)
    rcases hkind with hk | hk <;> subst hk <;>
      by_cases hi : 0 < i <;>
        simp [retrierGo, hi, List.filter_append, REv.isCallStart, REv.isGiveUp,
          hrec.1, hrec.2.1, hrec.2.2]

/-- Claim C8: a retrier configured with `N >= 1` attempts, no timeout and a
reporter, wrapping a unit whose start always fails, invokes the wrapped
start exactly `N` times, returns the exhausted-attempts error, and reports
give-up exactly once, with attempt count `N`. -/
theorem C8_retrier_exhausts (N : Nat) (hN : 1 ≤ N) (f : Nat → GoErr) (kind : RKind)
    (hkind : kind = RKind.plain ∨ kind = RKind.withContext) :
    (ServiceRetrierStart true (fun _ => false) kind (fun i => some (f i)) N).2 =
      ROutcome.err GoErr.exhaustedAttempts ∧
    ((ServiceRetrierStart true (fun _ => false) kind (fun i => some (f i)) N).1.filter
        REv.isCallStart).length = N ∧
    (ServiceRetrierStart true (fun _ => false) kind (fun i => some (f i)) N).1.filter
        REv.isGiveUp = [REv.afterGiveUp N GoErr.exhaustedAttempts] :=
  retrierGo_allFail f kind hkind N N 0

/-- Claim C8 witness: three attempts against a unit failing every time:
three start invocations, exhausted-attempts error, one give-up report with
count 3. -/
theorem C8_retrier_exhausts_witness :
    (ServiceRetrierStart true (fun _ => false) RKind.plain
        (fun i => some ((fun j => GoErr.custom j) i)) 3).2 =
      ROutcome.err GoErr.exhaustedAttempts ∧
    ((ServiceRetrierStart true (fun _ => false) RKind.plain
        (fun i => some ((fun j => GoErr.custom j) i)) 3).1.filter
        REv.isCallStart).length = 3 ∧
    (ServiceRetrierStart true (fun _ => false) RKind.plain
        (fun i => some ((fun j => GoErr.custom j) i)) 3).1.filter
        REv.isGiveUp = [REv.afterGiveUp 3 GoErr.exhaustedAttempts] :=
  C8_retrier_exhausts 3 (by decide) (fun j => GoErr.custom j) RKind.plain (Or.inl rfl)

/-- Claim C9 (code bug): a nil reporter is not flow-neutral.  On the
retrier's exhausted-attempts give-up path the reporter is dereferenced
without the nil guard used at every other call site of the same function,
so with no reporter the call panics where with a reporter it returns the
exhausted-attempts error. -/
theorem C9_nil_reporter_give_up_panics :
    ServiceRetrierStart false (fun _ => false) RKind.plain
        (fun _ => some (GoErr.custom 1)) 1 =
      ([REv.callStart 0], ROutcome.panicked) ∧
    ServiceRetrierStart true (fun _ => false) RKind.plain
        (fun _ => some (GoErr.custom 1)) 1 =
      ([REv.callStart 0, REv.afterStart 0 (GoErr.custom 1),
        REv.afterGiveUp 1 GoErr.exhaustedAttempts],
        ROutcome.err GoErr.exhaustedAttempts) :=
  ⟨rfl, rfl⟩

end Services
